import Mathlib

/-!
# buienradar-mqtt: a shallow embedding of `buienradar-mqtt.go`

The program polls the `buienradar.nl` XML feed, keeps the stations of one
region, and republishes every available measurement on an MQTT broker.

Modelling decisions.

* Go strings are Lean `String`s.  Station data comes out of `encoding/xml`,
  which only yields valid UTF-8, so a string is a sequence of runes (`Char`).
* The effects of the program (log lines, HTTP fetches, channel sends, sleeps,
  broker publishes) are recorded as a list of `Event`s, together with the
  `Status` in which the code stopped.
* The outside world is passed in explicitly: the environment as a lookup
  function, the HTTP/XML stack as the list of responses that successive
  fetches obtain, the MQTT client as a function from the calls made so far and
  the current call to the token it hands back.
* The unbuffered channel between the two goroutines is FIFO with one producer
  and one consumer; `MessageLoop` therefore receives the list of messages in
  the order in which `BuienradarLoop` sent them.
* `unicode.ToLower` consults the Unicode case tables for runes above
  `unicode.MaxASCII`; these tables belong to the Go runtime and are taken as
  a parameter `toLowerCase`.
-/

namespace BuienradarMqtt

/-! ## Data model -/

/-- Message passed along between `*Loop` and `MessageLoop` through a channel. -/
structure MqttCronMessage where
  Topic : String
  Payload : String
  Retain : Bool
  deriving DecidableEq, Repr

structure BuienradarAPIStationData where
  Region : String
  Name : String
  deriving DecidableEq, Repr

structure BuienradarAPIData where
  Code : String
  Station : BuienradarAPIStationData
  Lat : String
  Lon : String
  Humidity : String
  TemperatureGround : String
  Temperature10cm : String
  WindSpeed : String
  GustSpeed : String
  AirPressure : String
  SightRange : String
  Rain : String
  deriving DecidableEq, Repr

/-- Arguments of one call `c.Publish(topic, qos, retained, payload)`. -/
structure Publish where
  topic : String
  qos : Nat
  retained : Bool
  payload : String
  deriving DecidableEq, Repr

/-- What the program reads off an `mqtt.Token`: the result of `token.Wait()`
and of `token.Error()` (`none` is Go's `nil`). -/
structure Token where
  wait : Bool
  error : Option String
  deriving DecidableEq, Repr

/-- The MQTT client: the token returned by a `Publish` call, which may depend
on the calls made before it. -/
abbrev Client := List Publish → Publish → Token

/-- Outcome of the HTTP GET, body read and XML decoding that
`BuienradarAPICall` performs. -/
inductive FeedResponse where
  | getFailed
  | readFailed
  | parseFailed
  | stations (result : List BuienradarAPIData)
  deriving DecidableEq, Repr

/-- Observable effects of the program, in the order they happen. -/
inductive Event where
  | log (line : String)
  | fetch (url : String)
  | send (m : MqttCronMessage)
  | sleep (minutes : Nat)
  | publish (p : Publish)
  deriving DecidableEq, Repr

/-- How a piece of code stopped. -/
inductive Status where
  /-- Control reached the end of the code (the function returned, the loop ended). -/
  | returned
  /-- The call `logger.Fatalln` terminated the process. -/
  | fatal
  /-- A run-time panic (index out of range). -/
  | panicked
  /-- The endless loop was still going when the recorded responses ran out. -/
  | running
  deriving DecidableEq, Repr

structure Run where
  events : List Event
  status : Status
  deriving DecidableEq, Repr

/-- The messages sent on the channel during a run, in order. -/
def Run.sent (r : Run) : List MqttCronMessage :=
  r.events.filterMap fun e => match e with
    | .send m => some m
    | _ => none

/-- The broker publishes issued during a run, in order. -/
def Run.published (r : Run) : List Publish :=
  r.events.filterMap fun e => match e with
    | .publish p => some p
    | _ => none

/-- The URLs fetched during a run, in order. -/
def Run.fetched (r : Run) : List String :=
  r.events.filterMap fun e => match e with
    | .fetch u => some u
    | _ => none

/-! ## Library functions used by the program -/

/-- Go's `len` on a string: its length in bytes. -/
def len (s : String) : Nat := s.utf8ByteSize

/-- The format `fmt.Sprintf("%s/%s", a, b)`. -/
def SprintfSlash (a b : String) : String := a ++ "/" ++ b

/-- The format `fmt.Sprintf("%s", a)`. -/
def SprintfString (a : String) : String := a

/-- Go's `unicode.ToLower`: ASCII is handled inline, every other rune goes
through the case tables (`toLowerCase`). -/
def unicodeToLower (toLowerCase : Char → Char) (r : Char) : Char :=
  if r.toNat ≤ 127 then
    if 65 ≤ r.toNat ∧ r.toNat ≤ 90 then Char.ofNat (r.toNat + 32) else r
  else toLowerCase r

/-- Go's `strings.ToLower`: every rune is mapped through `unicode.ToLower`. -/
def stringsToLower (toLowerCase : Char → Char) (s : String) : String :=
  ⟨s.data.map (unicodeToLower toLowerCase)⟩

/-- Go's `strings.Replace(s, old, new, -1)` for one-rune strings `old` and
`new`: every occurrence of `old` is replaced. -/
def stringsReplaceAll (s : String) (old new : Char) : String :=
  ⟨s.data.map fun c => if c = old then new else c⟩

/-! ## The program -/

/-- The `buienradar.nl` API returns `-` when a value is not available, we
convert to empty string and check it later when queueing messages. -/
def BuienradarAPINormalizeValue (value : String) : String :=
  if value = "-" then "" else value

/-- Call the `buienradar.nl` API and return the array of station data.  The
result lists the effects of the call and holds `none` when `logger.Fatalln`
terminated the process. -/
def BuienradarAPICall (apiUrl : String) (response : FeedResponse) :
    List Event × Option (List BuienradarAPIData) :=
  match response with
  | .getFailed =>
    ([.fetch apiUrl,
      .log "BuienradarAPICall could not communicate with the \x60buienradar.nl\x60 domain."],
      none)
  | .readFailed =>
    ([.fetch apiUrl, .log "BuienradarAPICall could not read the response."], none)
  | .parseFailed =>
    ([.fetch apiUrl, .log "BuienradarAPICall could not parse the response."], none)
  | .stations result => ([.fetch apiUrl], some result)

/-- The two slices `tpcs` and `msgs` that the loop body fills. -/
structure Queued where
  tpcs : List String
  msgs : List String
  deriving DecidableEq, Repr

/-- One of the eight `if len(BuienradarAPINormalizeValue(value)) > 0` blocks. -/
def queueField (topicFromEnv name value : String) (q : Queued) : Queued :=
  if len (BuienradarAPINormalizeValue value) > 0 then
    { tpcs := q.tpcs ++ [SprintfSlash topicFromEnv name]
      msgs := q.msgs ++ [SprintfString value] }
  else q

/-- The eight blocks of the loop body, lines 183 to 221, starting from two
empty slices. -/
def queueFields (topicFromEnv : String) (location : BuienradarAPIData) : Queued :=
  let q : Queued := { tpcs := [], msgs := [] }
  let q := queueField topicFromEnv "humidity" location.Humidity q
  let q := queueField topicFromEnv "temperature.ground" location.TemperatureGround q
  let q := queueField topicFromEnv "temperature.10cm" location.Temperature10cm q
  let q := queueField topicFromEnv "wind" location.WindSpeed q
  let q := queueField topicFromEnv "gust" location.GustSpeed q
  let q := queueField topicFromEnv "pressure" location.AirPressure q
  let q := queueField topicFromEnv "rain" location.Rain q
  let q := queueField topicFromEnv "sight" location.SightRange q
  q

/-- The loop `for idx, msg := range msgs` of lines 223 to 225, from index
`idx` on: each message is sent with topic `tpcs[idx]`. -/
def sendQueued (tpcs : List String) : Nat → List String → Run
  | _, [] => { events := [], status := .returned }
  | idx, msg :: rest =>
    match tpcs.get? idx with
    | none => { events := [], status := .panicked }
    | some tpc =>
      let r := sendQueued tpcs (idx + 1) rest
      { events := .send { Retain := false, Topic := tpc, Payload := msg } :: r.events
        status := r.status }

/-- The expression of line 177. -/
def regionName (toLowerCase : Char → Char) (location : BuienradarAPIData) : String :=
  stringsReplaceAll (stringsToLower toLowerCase location.Station.Region) ' ' '-'

/-- One iteration of the loop over the stations; `none` when the iteration
ends at the `continue` of line 180. -/
def stationBody (toLowerCase : Char → Char) (topicFromEnv regionFromEnv : String)
    (location : BuienradarAPIData) : Option Run :=
  if regionName toLowerCase location != regionFromEnv then none
  else
    let q := queueFields topicFromEnv location
    some (sendQueued q.tpcs 0 q.msgs)

/-- The loop `for _, location := range ...` of lines 173 to 226. -/
def rangeStations (toLowerCase : Char → Char) (topicFromEnv regionFromEnv : String) :
    List BuienradarAPIData → Run
  | [] => { events := [], status := .returned }
  | location :: rest =>
    match stationBody toLowerCase topicFromEnv regionFromEnv location with
    | none => rangeStations toLowerCase topicFromEnv regionFromEnv rest
    | some r =>
      match r.status with
      | .returned =>
        let r2 := rangeStations toLowerCase topicFromEnv regionFromEnv rest
        { events := r.events ++ r2.events, status := r2.status }
      | s => { events := r.events, status := s }

/-- The endless `for` of lines 172 to 229; each cycle consumes the response
that its fetch obtains. -/
def pollLoop (toLowerCase : Char → Char) (topicFromEnv regionFromEnv : String) :
    List FeedResponse → Run
  | [] => { events := [], status := .running }
  | response :: later =>
    match BuienradarAPICall "https://data.buienradar.nl/1.0/feed/xml" response with
    | (fetching, none) => { events := fetching, status := .fatal }
    | (fetching, some stations) =>
      let r := rangeStations toLowerCase topicFromEnv regionFromEnv stations
      match r.status with
      | .returned =>
        let r2 := pollLoop toLowerCase topicFromEnv regionFromEnv later
        { events := fetching ++ r.events ++ .sleep 5 :: r2.events, status := r2.status }
      | s => { events := fetching ++ r.events, status := s }

/-- The function `BuienradarLoop`; `env` is `os.LookupEnv`. -/
def BuienradarLoop (toLowerCase : Char → Char) (env : String → Option String)
    (responses : List FeedResponse) : Run :=
  match env "MQTT_TOPIC", env "BUIENRADAR_REGION" with
  | none, _ =>
    { events := [.log "BuienradarLoop needs \x60MQTT_TOPIC\x60 set in the environment, disabled."]
      status := .returned }
  | some _, none =>
    { events :=
        [.log "BuienradarLoop needs \x60BUIENRADAR_REGION\x60 set in the environment, disabled."]
      status := .returned }
  | some topicFromEnv, some regionFromEnv =>
    pollLoop toLowerCase topicFromEnv regionFromEnv responses

/-- The call that `MessageLoop` makes for a message, lines 112 and 114. -/
def publishCall (pfx : String) (m : MqttCronMessage) : Publish :=
  { topic := SprintfSlash pfx m.Topic, qos := 0, retained := m.Retain, payload := m.Payload }

/-- The loop of `MessageLoop` over the messages still to be received, after
the calls `history` have been made. -/
def messageLoopFrom (c : Client) (pfx : String) : List Publish → List MqttCronMessage → Run
  | _, [] => { events := [], status := .returned }
  | history, m :: rest =>
    let call := publishCall pfx m
    let token := c history call
    if token.wait && token.error.isSome then
      { events := [.publish call, .log "MessageLoop could not publish message."]
        status := .fatal }
    else
      let r := messageLoopFrom c pfx (history ++ [call]) rest
      { events :=
          .publish call ::
            .log ("MessageLoop published topic=\x27" ++ call.topic ++ "\x27,payload=\x27" ++
              m.Payload ++ "\x27") :: r.events
        status := r.status }

/-- Listens on a channel to submit messages to MQTT; `ch` lists the messages
received before the channel is closed. -/
def MessageLoop (c : Client) (ch : List MqttCronMessage) (pfx : String) : Run :=
  messageLoopFrom c pfx [] ch

/-! ## The tracked fields -/

/-- The canonical names of the eight tracked fields, in the order of the loop body. -/
def fieldNames : List String :=
  ["humidity", "temperature.ground", "temperature.10cm", "wind", "gust", "pressure", "rain",
    "sight"]

/-- The eight tracked fields of a station, each with its canonical name and
its raw value, in the order of the loop body. -/
def trackedFields (location : BuienradarAPIData) : List (String × String) :=
  [("humidity", location.Humidity),
   ("temperature.ground", location.TemperatureGround),
   ("temperature.10cm", location.Temperature10cm),
   ("wind", location.WindSpeed),
   ("gust", location.GustSpeed),
   ("pressure", location.AirPressure),
   ("rain", location.Rain),
   ("sight", location.SightRange)]

/-- A field is present when its normalized value is not the empty string. -/
def isPresent (field : String × String) : Bool :=
  BuienradarAPINormalizeValue field.2 != ""

/-- The tracked fields of a station that are present. -/
def presentFields (location : BuienradarAPIData) : List (String × String) :=
  (trackedFields location).filter isPresent

/-- The message that the loop body builds for a field. -/
def fieldMessage (b : String) (field : String × String) : MqttCronMessage :=
  { Topic := b ++ "/" ++ field.1, Payload := field.2, Retain := false }

/-- The messages that one iteration of the station loop sends. -/
def stationSent (tbl : Char → Char) (b t : String) (location : BuienradarAPIData) :
    List MqttCronMessage :=
  match stationBody tbl b t location with
  | none => []
  | some r => r.sent

/-! ## The words of the specification -/

/-- The feeds of the cycles that a run of the endless loop goes through: the
answers of the successive fetches, up to the first fetch that fails. -/
def completedFeeds : List FeedResponse → List (List BuienradarAPIData)
  | .stations feed :: later => feed :: completedFeeds later
  | _ => []

/-- The capital letters of ASCII, each with its small letter. -/
def capitalLetters : List (Char × Char) :=
  "ABCDEFGHIJKLMNOPQRSTUVWXYZ".data.zip "abcdefghijklmnopqrstuvwxyz".data

/-- Lower-casing one rune: an ASCII capital becomes its small letter, any other
ASCII rune stays, and a rune above ASCII is looked up in the Unicode tables. -/
def lowerCased (tbl : Char → Char) (c : Char) : Char :=
  match capitalLetters.lookup c with
  | some small => small
  | none => if c.toNat < 128 then c else tbl c

/-- The normalized region of the specification, rune by rune: the region
lower-cased, then every space replaced by a hyphen. -/
def normalizedRegion (tbl : Char → Char) : List Char → List Char
  | [] => []
  | c :: rest =>
    (if lowerCased tbl c = ' ' then '-' else lowerCased tbl c) :: normalizedRegion tbl rest

/-! ## Example stations -/

/-- A station of the region `Zuid-Holland` that only reports its humidity. -/
def rotterdam : BuienradarAPIData :=
  { Code := "6344", Station := { Region := "Zuid-Holland", Name := "Meetstation Rotterdam" },
    Lat := "51.95", Lon := "4.45", Humidity := "77", TemperatureGround := "-",
    Temperature10cm := "-", WindSpeed := "-", GustSpeed := "-", AirPressure := "-",
    SightRange := "-", Rain := "-" }

/-- A station of the region `Friesland` reporting every field. -/
def leeuwarden : BuienradarAPIData :=
  { Code := "6270", Station := { Region := "Friesland", Name := "Meetstation Leeuwarden" },
    Lat := "53.22", Lon := "5.75", Humidity := "81", TemperatureGround := "9.1",
    Temperature10cm := "8.7", WindSpeed := "6.2", GustSpeed := "9.8", AirPressure := "1012.3",
    SightRange := "21000", Rain := "0.0" }

/-- A station whose region is spelled `Zuid Holland`, reporting some fields
and leaving others empty or at the sentinel. -/
def hoekVanHolland : BuienradarAPIData :=
  { Code := "6330",
    Station := { Region := "Zuid Holland", Name := "Meetstation Hoek van Holland" },
    Lat := "51.98", Lon := "4.10", Humidity := "-", TemperatureGround := "12.3",
    Temperature10cm := "", WindSpeed := "5.0", GustSpeed := "-", AirPressure := "-",
    SightRange := "18000", Rain := "-" }

/-- An environment in which both variables of `BuienradarLoop` are set. -/
def exampleEnv (name : String) : Option String :=
  if name = "MQTT_TOPIC" then some "weer"
  else if name = "BUIENRADAR_REGION" then some "zuid-holland"
  else none

/-- A client whose publishes all succeed. -/
def acceptingClient : Client := fun _ _ => { wait := true, error := none }

/-- A client that refuses every payload `9.8` and accepts everything else. -/
def pickyClient : Client := fun _ call =>
  if call.payload = "9.8" then { wait := true, error := some "not connected" }
  else { wait := true, error := none }

/-! ## The loop body in closed form -/

theorem len_pos_iff (s : String) : 0 < len s ↔ s ≠ "" := by
  obtain ⟨l⟩ := s
  cases l with
  | nil => simp [len, String.utf8ByteSize, String.utf8ByteSize.go]
  | cons c cs =>
    have h := Char.utf8Size_pos c
    have : (⟨c :: cs⟩ : String) ≠ "" := by
      intro h'
      have := congrArg String.data h'
      simp at this
    simp [len, String.utf8ByteSize, String.utf8ByteSize.go, this]
    omega

theorem queueField_eq (b name value : String) (q : Queued) :
    queueField b name value q =
      { tpcs := q.tpcs ++ ([(name, value)].filter isPresent).map fun f => b ++ "/" ++ f.1
        msgs := q.msgs ++ ([(name, value)].filter isPresent).map fun f => f.2 } := by
  unfold queueField
  by_cases h : BuienradarAPINormalizeValue value = ""
  · have h0 : ¬ 0 < len (BuienradarAPINormalizeValue value) := by
      rw [len_pos_iff]; simpa using h
    have hp : isPresent (name, value) = false := by simp [isPresent, h]
    rw [if_neg h0, List.filter_cons_of_neg (by simp [hp])]
    simp
  · have h0 : 0 < len (BuienradarAPINormalizeValue value) := (len_pos_iff _).2 h
    have hp : isPresent (name, value) = true := by simp [isPresent, h]
    rw [if_pos h0, List.filter_cons_of_pos hp]
    simp [SprintfSlash, SprintfString]

theorem foldl_queueField (b : String) (fs : List (String × String)) (q : Queued) :
    fs.foldl (fun q f => queueField b f.1 f.2 q) q =
      { tpcs := q.tpcs ++ (fs.filter isPresent).map fun f => b ++ "/" ++ f.1
        msgs := q.msgs ++ (fs.filter isPresent).map fun f => f.2 } := by
  induction fs generalizing q with
  | nil => simp
  | cons f fs ih =>
    rw [List.foldl_cons, ih, queueField_eq]
    by_cases hp : isPresent f = true
    · simp [List.filter_cons_of_pos, hp]
    · simp [List.filter_cons_of_neg, hp]

theorem queueFields_eq (b : String) (location : BuienradarAPIData) :
    queueFields b location =
      { tpcs := (presentFields location).map fun f => b ++ "/" ++ f.1
        msgs := (presentFields location).map fun f => f.2 } := by
  have h : queueFields b location =
      (trackedFields location).foldl (fun q f => queueField b f.1 f.2 q)
        { tpcs := [], msgs := [] } := rfl
  rw [h, foldl_queueField]
  simp [presentFields]

theorem sendQueued_map (b : String) (fs : List (String × String)) (pre : List String) :
    sendQueued (pre ++ fs.map fun f => b ++ "/" ++ f.1) pre.length (fs.map fun f => f.2) =
      { events := fs.map fun f => Event.send (fieldMessage b f), status := .returned } := by
  induction fs generalizing pre with
  | nil => simp [sendQueued]
  | cons f fs ih =>
    have h := ih (pre ++ [b ++ "/" ++ f.1])
    simp only [List.length_append, List.length_singleton, List.append_assoc,
      List.singleton_append] at h
    simp only [List.map_cons, sendQueued]
    have hget : (pre ++ (b ++ "/" ++ f.1) :: fs.map fun f => b ++ "/" ++ f.1).get? pre.length =
        some (b ++ "/" ++ f.1) := by
      rw [List.get?_eq_getElem?, List.getElem?_append_right (Nat.le_refl _)]
      simp
    rw [hget]
    simp only [h]
    simp [fieldMessage]

theorem stationBody_eq (tbl : Char → Char) (b t : String) (location : BuienradarAPIData) :
    stationBody tbl b t location =
      if regionName tbl location = t then
        some { events := (presentFields location).map fun f => Event.send (fieldMessage b f)
               status := .returned }
      else none := by
  unfold stationBody
  by_cases h : regionName tbl location = t
  · have := sendQueued_map b (presentFields location) []
    simp only [List.nil_append, List.length_nil] at this
    simp [h, queueFields_eq, this]
  · simp [h]

theorem sent_map_send (ms : List MqttCronMessage) (s : Status) :
    Run.sent { events := ms.map Event.send, status := s } = ms := by
  induction ms with
  | nil => rfl
  | cons m ms ih =>
    simp only [Run.sent] at ih
    simp [Run.sent, List.filterMap_cons, ih]

theorem stationSent_eq (tbl : Char → Char) (b t : String) (location : BuienradarAPIData) :
    stationSent tbl b t location =
      if regionName tbl location = t then (presentFields location).map (fieldMessage b)
      else [] := by
  unfold stationSent
  rw [stationBody_eq]
  by_cases h : regionName tbl location = t
  · have := sent_map_send ((presentFields location).map (fieldMessage b)) .returned
    simp only [List.map_map] at this
    simp only [if_pos h]
    exact this
  · simp [h]

theorem rangeStations_eq (tbl : Char → Char) (b t : String) (feed : List BuienradarAPIData) :
    rangeStations tbl b t feed =
      { events := (feed.flatMap (stationSent tbl b t)).map Event.send, status := .returned } := by
  induction feed with
  | nil => simp [rangeStations]
  | cons location rest ih =>
    simp only [rangeStations, ih, List.flatMap_cons, stationSent_eq, stationBody_eq]
    by_cases h : regionName tbl location = t
    · simp [h, Function.comp_def]
    · simp [h]

theorem pollLoop_one (tbl : Char → Char) (b t : String) (feed : List BuienradarAPIData) :
    pollLoop tbl b t [.stations feed] =
      { events := .fetch "https://data.buienradar.nl/1.0/feed/xml" ::
          (feed.flatMap (stationSent tbl b t)).map Event.send ++ [.sleep 5]
        status := .running } := by
  simp [pollLoop, BuienradarAPICall, rangeStations_eq]

theorem BuienradarLoop_one (tbl : Char → Char) (env : String → Option String) (b t : String)
    (hb : env "MQTT_TOPIC" = some b) (ht : env "BUIENRADAR_REGION" = some t)
    (feed : List BuienradarAPIData) :
    (BuienradarLoop tbl env [.stations feed]).sent = feed.flatMap (stationSent tbl b t) := by
  unfold BuienradarLoop
  rw [hb, ht]
  simp only [pollLoop_one]
  have h := sent_map_send (feed.flatMap (stationSent tbl b t)) .running
  simp only [Run.sent] at h ⊢
  simp [List.filterMap_append, h]

theorem sent_append (a b : List Event) (s s1 s2 : Status) :
    Run.sent { events := a ++ b, status := s } =
      Run.sent { events := a, status := s1 } ++ Run.sent { events := b, status := s2 } := by
  simp [Run.sent, List.filterMap_append]

theorem pollLoop_sent (tbl : Char → Char) (b t : String) (responses : List FeedResponse) :
    (pollLoop tbl b t responses).sent =
      (completedFeeds responses).flatMap fun feed => feed.flatMap (stationSent tbl b t) := by
  induction responses with
  | nil => rfl
  | cons response later ih =>
    cases response with
    | getFailed => rfl
    | readFailed => rfl
    | parseFailed => rfl
    | stations feed =>
      have h := sent_map_send (feed.flatMap (stationSent tbl b t)) .returned
      simp only [Run.sent] at h ih ⊢
      simp only [pollLoop, BuienradarAPICall, rangeStations_eq, completedFeeds,
        List.flatMap_cons]
      simp [List.filterMap_append, h, ih]

theorem BuienradarLoop_sent (tbl : Char → Char) (env : String → Option String) (b t : String)
    (hb : env "MQTT_TOPIC" = some b) (ht : env "BUIENRADAR_REGION" = some t)
    (responses : List FeedResponse) :
    (BuienradarLoop tbl env responses).sent =
      (completedFeeds responses).flatMap fun feed => feed.flatMap (stationSent tbl b t) := by
  unfold BuienradarLoop
  rw [hb, ht]
  exact pollLoop_sent tbl b t responses

theorem topic_injective (b x y : String) (h : b ++ "/" ++ x = b ++ "/" ++ y) : x = y := by
  have h2 := congrArg String.data h
  simp only [String.data_append, List.append_assoc] at h2
  exact String.ext (List.append_cancel_left (List.append_cancel_left h2))

theorem trackedFields_name_unique (location : BuienradarAPIData) (f g : String × String)
    (hf : f ∈ trackedFields location) (hg : g ∈ trackedFields location) (h : f.1 = g.1) :
    f = g := by
  simp only [trackedFields, List.mem_cons, List.mem_singleton, List.not_mem_nil, or_false] at hf hg
  rcases hf with rfl | rfl | rfl | rfl | rfl | rfl | rfl | rfl <;>
    rcases hg with rfl | rfl | rfl | rfl | rfl | rfl | rfl | rfl <;>
    first | rfl | (exact absurd h (by simp))

theorem trackedFields_names (location : BuienradarAPIData) :
    (trackedFields location).map (fun f => f.1) = fieldNames := rfl

theorem lookup_above (c : Char) (l : List (Char × Char)) (hl : ∀ q ∈ l, q.1.toNat ≤ 127)
    (hc : 127 < c.toNat) : l.lookup c = none := by
  induction l with
  | nil => rfl
  | cons q rest ih =>
    obtain ⟨k, v⟩ := q
    have hk : k.toNat ≤ 127 := hl (k, v) (List.mem_cons_self _ _)
    have hne : (c == k) = false := by
      rw [beq_eq_false_iff_ne]
      intro h
      rw [h] at hc
      omega
    rw [List.lookup_cons, hne]
    exact ih fun q hq => hl q (List.mem_cons_of_mem _ hq)

/-! ## The claims -/

/-- C6, as stated, fails at the empty string: it is normalized to the empty
string although it is not the sentinel. -/
theorem normalize_empty_not_sentinel :
    ¬ (BuienradarAPINormalizeValue "" = "" ↔ "" = "-") := by
  decide

/-- C6, amended: the normalized value is the empty string exactly when the raw
value is the sentinel `-` or is itself empty, and every raw value other than the
sentinel is returned unchanged. -/
theorem normalize_spec (v : String) :
    (BuienradarAPINormalizeValue v = "" ↔ (v = "-" ∨ v = "")) ∧
      (v = "-" → BuienradarAPINormalizeValue v = "") ∧
      (v ≠ "-" → BuienradarAPINormalizeValue v = v) := by
  unfold BuienradarAPINormalizeValue
  by_cases h : v = "-"
  · simp [h]
  · simp [h]

/-- The amended C6 at the raw values `77` and `-`. -/
theorem normalize_spec_witness :
    (BuienradarAPINormalizeValue "77" = "" ↔ ("77" = "-" ∨ "77" = "")) ∧
      ("-" = "-" → BuienradarAPINormalizeValue "-" = "") ∧
      ("77" ≠ "-" ∧ BuienradarAPINormalizeValue "77" = "77") :=
  ⟨(normalize_spec "77").1, (normalize_spec "-").2.1, by decide,
    (normalize_spec "77").2.2 (by decide)⟩

/-- C2: for a station whose normalized region is the target region, the number
of messages sent equals the number of tracked fields whose normalized value is
not empty, and a field whose raw value is the sentinel `-` or the empty string
has no message (no sent message carries that field's topic). -/
theorem message_count (tbl : Char → Char) (b t : String) (location : BuienradarAPIData)
    (hmatch : regionName tbl location = t) :
    (stationSent tbl b t location).length =
        (trackedFields location).countP (fun f => BuienradarAPINormalizeValue f.2 != "") ∧
      ∀ f ∈ trackedFields location, (f.2 = "-" ∨ f.2 = "") →
        ∀ m ∈ stationSent tbl b t location, m.Topic ≠ b ++ "/" ++ f.1 := by
  rw [stationSent_eq, if_pos hmatch]
  refine ⟨?_, ?_⟩
  · rw [List.length_map, presentFields, List.countP_eq_length_filter]
    rfl
  · intro f hf hv m hm htopic
    obtain ⟨g, hg, rfl⟩ := List.mem_map.1 hm
    have hg2 := List.mem_filter.1 hg
    have hname : g.1 = f.1 := topic_injective b _ _ htopic
    have hfg : g = f := trackedFields_name_unique location g f hg2.1 hf hname
    have hp : isPresent f = true := hfg ▸ hg2.2
    rcases hv with hv | hv <;> simp [isPresent, BuienradarAPINormalizeValue, hv] at hp

/-- C2 at a station that reports only its humidity: one message. -/
theorem message_count_witness :
    (stationSent id "weer" "zuid-holland" rotterdam).length =
        (trackedFields rotterdam).countP (fun f => BuienradarAPINormalizeValue f.2 != "") ∧
      (stationSent id "weer" "zuid-holland" rotterdam).length = 1 ∧
      ∀ f ∈ trackedFields rotterdam, (f.2 = "-" ∨ f.2 = "") →
        ∀ m ∈ stationSent id "weer" "zuid-holland" rotterdam, m.Topic ≠ "weer" ++ "/" ++ f.1 :=
  ⟨(message_count id "weer" "zuid-holland" rotterdam (by decide)).1, by decide,
    (message_count id "weer" "zuid-holland" rotterdam (by decide)).2⟩

/-- C3: for a station whose normalized region is the target region, the sent
messages carry, in order, the raw values of the present fields, each under the
topic of its field; no sent message has the sentinel `-` or the empty string as
its payload. -/
theorem payload_is_raw (tbl : Char → Char) (b t : String) (location : BuienradarAPIData)
    (hmatch : regionName tbl location = t) :
    (stationSent tbl b t location).map (fun m => (m.Topic, m.Payload)) =
        ((trackedFields location).filter
          (fun f => BuienradarAPINormalizeValue f.2 != "")).map
            (fun f => (b ++ "/" ++ f.1, f.2)) ∧
      ∀ m ∈ stationSent tbl b t location, m.Payload ≠ "-" ∧ m.Payload ≠ "" := by
  rw [stationSent_eq, if_pos hmatch]
  refine ⟨?_, ?_⟩
  · rw [List.map_map]
    rfl
  · intro m hm
    obtain ⟨g, hg, rfl⟩ := List.mem_map.1 hm
    have hp : isPresent g = true := (List.mem_filter.1 hg).2
    simp only [fieldMessage]
    constructor
    · intro h
      simp [isPresent, BuienradarAPINormalizeValue, h] at hp
    · intro h
      simp [isPresent, BuienradarAPINormalizeValue, h] at hp

/-- C3 at a station that reports all eight fields. -/
theorem payload_is_raw_witness :
    regionName id leeuwarden = "friesland" ∧
      (stationSent id "weer" "friesland" leeuwarden).map (fun m => (m.Topic, m.Payload)) =
        [("weer/humidity", "81"), ("weer/temperature.ground", "9.1"),
         ("weer/temperature.10cm", "8.7"), ("weer/wind", "6.2"), ("weer/gust", "9.8"),
         ("weer/pressure", "1012.3"), ("weer/rain", "0.0"), ("weer/sight", "21000")] ∧
      ∀ m ∈ stationSent id "weer" "friesland" leeuwarden, m.Payload ≠ "-" ∧ m.Payload ≠ "" :=
  ⟨by decide,
    (payload_is_raw id "weer" "friesland" leeuwarden (by decide)).1.trans (by decide),
    (payload_is_raw id "weer" "friesland" leeuwarden (by decide)).2⟩

/-- C5: a station is processed (the iteration gets past the `continue`) if and
only if its region, lower-cased and with every space replaced by a hyphen, is
exactly the target region; a station that does not match sends no message
whatever its fields hold, and when no station of any fetched feed matches,
`BuienradarLoop` sends no message. -/
theorem processed_iff_region (tbl : Char → Char) (b t : String) :
    (∀ location : BuienradarAPIData,
        ((stationBody tbl b t location).isSome ↔
          (⟨normalizedRegion tbl location.Station.Region.data⟩ : String) = t) ∧
        ((⟨normalizedRegion tbl location.Station.Region.data⟩ : String) ≠ t →
          stationSent tbl b t location = [])) ∧
      ∀ (env : String → Option String) (responses : List FeedResponse),
        env "MQTT_TOPIC" = some b → env "BUIENRADAR_REGION" = some t →
        (∀ feed ∈ completedFeeds responses, ∀ location ∈ feed,
          (⟨normalizedRegion tbl location.Station.Region.data⟩ : String) ≠ t) →
        (BuienradarLoop tbl env responses).sent = [] := by
  have hlower : ∀ c : Char, unicodeToLower tbl c = lowerCased tbl c := by
    intro c
    unfold unicodeToLower lowerCased
    by_cases h1 : c.toNat ≤ 127
    · have hc : c = Char.ofNat c.toNat := (Char.ofNat_toNat c).symm
      generalize c.toNat = n at h1 hc
      subst hc
      interval_cases n <;> rfl
    · have hnone : capitalLetters.lookup c = none :=
        lookup_above c capitalLetters (by decide) (by omega)
      rw [if_neg h1, hnone]
      simp only
      rw [if_neg (by omega)]
  have hchars : ∀ cs : List Char,
      (cs.map (unicodeToLower tbl)).map (fun c => if c = ' ' then '-' else c) =
        normalizedRegion tbl cs := by
    intro cs
    induction cs with
    | nil => rfl
    | cons c rest ih => simp only [List.map_cons, normalizedRegion, ih, hlower]
  have hnorm : ∀ location : BuienradarAPIData,
      regionName tbl location = ⟨normalizedRegion tbl location.Station.Region.data⟩ := by
    intro location
    unfold regionName stringsReplaceAll stringsToLower
    exact congrArg String.mk (hchars _)
  refine ⟨fun location => ⟨?_, ?_⟩, ?_⟩
  · rw [stationBody_eq, ← hnorm]
    by_cases h : regionName tbl location = t
    · simp [h]
    · simp [h]
  · intro h
    rw [← hnorm] at h
    rw [stationSent_eq, if_neg h]
  · intro env responses hb ht hno
    rw [BuienradarLoop_sent tbl env b t hb ht]
    apply List.flatMap_eq_nil_iff.2
    intro feed hfeed
    apply List.flatMap_eq_nil_iff.2
    intro location hl
    have h := hno feed hfeed location hl
    rw [← hnorm] at h
    rw [stationSent_eq, if_neg h]

/-- C5 at a station whose region `Zuid Holland` has capitals and a space: it is
processed for the target `zuid-holland` and not for the target `zuid holland`;
a station of another region sends nothing, in any cycle. -/
theorem processed_iff_region_witness :
    ((stationBody id "weer" "zuid-holland" hoekVanHolland).isSome ∧
        (⟨normalizedRegion id "Zuid Holland".data⟩ : String) = "zuid-holland") ∧
      normalizedRegion id "Zuid Holland".data = "zuid-holland".data ∧
      stationSent id "weer" "zuid holland" hoekVanHolland = [] ∧
      stationSent id "weer" "Zuid-Holland" hoekVanHolland = [] ∧
      stationSent id "weer" "zuid-holland" leeuwarden = [] ∧
      (BuienradarLoop id exampleEnv [.stations [leeuwarden], .stations [leeuwarden]]).sent = [] :=
  ⟨⟨by decide,
      ((processed_iff_region id "weer" "zuid-holland").1 hoekVanHolland).1.1 (by decide)⟩,
    by decide,
    ((processed_iff_region id "weer" "zuid holland").1 hoekVanHolland).2 (by decide),
    ((processed_iff_region id "weer" "Zuid-Holland").1 hoekVanHolland).2 (by decide),
    ((processed_iff_region id "weer" "zuid-holland").1 leeuwarden).2 (by decide),
    (processed_iff_region id "weer" "zuid-holland").2 exampleEnv
      [.stations [leeuwarden], .stations [leeuwarden]] (by decide) (by decide) (by decide)⟩

/-- C7, as stated, fails: with topic base `weer` the message for the humidity
of a matching station has topic `weer/humidity`, and no sent message has the bare
canonical name `humidity` as its topic. -/
theorem topic_is_not_bare_name :
    (stationSent id "weer" "zuid-holland" rotterdam).map (fun m => m.Topic) = ["weer/humidity"] ∧
      ¬ ∃ m ∈ stationSent id "weer" "zuid-holland" rotterdam, m.Topic = "humidity" := by
  decide

/-- C7, amended: for a station whose normalized region is the target region,
the sent messages are, in order, one per present tracked field, each with topic
`base/name` for the canonical name of its field (the target topic base, a slash,
the name) and with the retain flag false. -/
theorem message_topic_retain (tbl : Char → Char) (b t : String) (location : BuienradarAPIData)
    (hmatch : regionName tbl location = t) :
    (stationSent tbl b t location).map (fun m => (m.Topic, m.Retain)) =
        ((trackedFields location).filter
          (fun f => BuienradarAPINormalizeValue f.2 != "")).map
            (fun f => (b ++ "/" ++ f.1, false)) := by
  rw [stationSent_eq, if_pos hmatch, List.map_map]
  rfl

/-- The amended C7 at a station that reports only its humidity. -/
theorem message_topic_retain_witness :
    regionName id rotterdam = "zuid-holland" ∧
      (stationSent id "weer" "zuid-holland" rotterdam).map (fun m => (m.Topic, m.Retain)) =
        [("weer/humidity", false)] :=
  ⟨by decide,
    (message_topic_retain id "weer" "zuid-holland" rotterdam (by decide)).trans (by decide)⟩

/-- C9: when `MQTT_TOPIC` or `BUIENRADAR_REGION` is not set, `BuienradarLoop`
returns (it does not terminate the process and is not left running), whatever
the feed would answer, without any fetch and without any send. -/
theorem disabled_without_configuration (tbl : Char → Char) (env : String → Option String)
    (responses : List FeedResponse)
    (habsent : env "MQTT_TOPIC" = none ∨ env "BUIENRADAR_REGION" = none) :
    (BuienradarLoop tbl env responses).status = .returned ∧
      (BuienradarLoop tbl env responses).fetched = [] ∧
      (BuienradarLoop tbl env responses).sent = [] ∧
      (BuienradarLoop tbl env responses).published = [] := by
  unfold BuienradarLoop
  rcases habsent with h | h
  · rw [h]
    simp [Run.fetched, Run.sent, Run.published]
  · rw [h]
    cases env "MQTT_TOPIC" <;> simp [Run.fetched, Run.sent, Run.published]

/-- C9 with `BUIENRADAR_REGION` unset and a feed that would have answered. -/
theorem disabled_without_configuration_witness :
    (BuienradarLoop id (fun name => if name = "MQTT_TOPIC" then some "weer" else none)
        [.stations [rotterdam], .getFailed]).status = .returned ∧
      (BuienradarLoop id (fun name => if name = "MQTT_TOPIC" then some "weer" else none)
        [.stations [rotterdam], .getFailed]).fetched = [] ∧
      (BuienradarLoop id (fun name => if name = "MQTT_TOPIC" then some "weer" else none)
        [.stations [rotterdam], .getFailed]).sent = [] ∧
      (BuienradarLoop id (fun name => if name = "MQTT_TOPIC" then some "weer" else none)
        [.stations [rotterdam], .getFailed]).published = [] :=
  disabled_without_configuration id (fun name => if name = "MQTT_TOPIC" then some "weer" else none)
    [.stations [rotterdam], .getFailed] (Or.inr (by decide))

theorem flatMap_stationSent_filter (tbl : Char → Char) (b t : String)
    (feed : List BuienradarAPIData) :
    feed.flatMap (stationSent tbl b t) =
      (feed.filter fun location => regionName tbl location = t).flatMap
        (stationSent tbl b t) := by
  induction feed with
  | nil => rfl
  | cons location rest ih =>
    by_cases h : regionName tbl location = t
    · rw [List.filter_cons_of_pos (by simpa using h), List.flatMap_cons, List.flatMap_cons, ih]
    · rw [List.filter_cons_of_neg (by simpa using h), List.flatMap_cons, ih, stationSent_eq,
        if_neg h, List.nil_append]

theorem fieldNames_nodup : fieldNames.Nodup := by decide

/-- C4: the messages sent in one cycle of `BuienradarLoop` are the
concatenation, in feed order, of the messages of the matching stations; the
topics of one station are `base/name` for names that form a sublist of the fixed
sequence humidity, temperature.ground, temperature.10cm, wind, gust, pressure,
rain, sight, without repetition. -/
theorem cycle_order (tbl : Char → Char) (env : String → Option String) (b t : String)
    (hb : env "MQTT_TOPIC" = some b) (ht : env "BUIENRADAR_REGION" = some t)
    (feed : List BuienradarAPIData) :
    (BuienradarLoop tbl env [.stations feed]).sent =
        (feed.filter fun location => regionName tbl location = t).flatMap
          (stationSent tbl b t) ∧
      ∀ location : BuienradarAPIData, ∃ names : List String,
        names.Sublist
            ["humidity", "temperature.ground", "temperature.10cm", "wind", "gust", "pressure",
              "rain", "sight"] ∧
          names.Nodup ∧
          (stationSent tbl b t location).map (fun m => m.Topic) =
            names.map (fun s => b ++ "/" ++ s) := by
  refine ⟨?_, fun location => ?_⟩
  · rw [BuienradarLoop_one tbl env b t hb ht, ← flatMap_stationSent_filter]
  · by_cases h : regionName tbl location = t
    · refine ⟨(presentFields location).map (fun f => f.1), ?_, ?_, ?_⟩
      · have hsub : ((presentFields location).map (fun f => f.1)).Sublist
            ((trackedFields location).map (fun f => f.1)) :=
          (List.filter_sublist _).map _
        rw [trackedFields_names] at hsub
        exact hsub
      · have hsub : ((presentFields location).map (fun f => f.1)).Sublist
            ((trackedFields location).map (fun f => f.1)) :=
          (List.filter_sublist _).map _
        rw [trackedFields_names] at hsub
        exact fieldNames_nodup.sublist hsub
      · rw [stationSent_eq, if_pos h, List.map_map, List.map_map]
        rfl
    · refine ⟨[], List.nil_sublist _, List.nodup_nil, ?_⟩
      rw [stationSent_eq, if_neg h]
      rfl

/-- C4 at a feed of three stations, two of which match. -/
theorem cycle_order_witness :
    (BuienradarLoop id exampleEnv [.stations [leeuwarden, hoekVanHolland, rotterdam]]).sent =
      [{ Topic := "weer/temperature.ground", Payload := "12.3", Retain := false },
       { Topic := "weer/wind", Payload := "5.0", Retain := false },
       { Topic := "weer/sight", Payload := "18000", Retain := false },
       { Topic := "weer/humidity", Payload := "77", Retain := false }] :=
  (cycle_order id exampleEnv "weer" "zuid-holland" (by decide) (by decide)
    [leeuwarden, hoekVanHolland, rotterdam]).1.trans (by decide)

theorem unicodeToLower_not_upper (tbl : Char → Char)
    (htbl : ∀ r : Char, 127 < r.toNat → ¬ (65 ≤ (tbl r).toNat ∧ (tbl r).toNat ≤ 90))
    (r : Char) :
    ¬ (65 ≤ (unicodeToLower tbl r).toNat ∧ (unicodeToLower tbl r).toNat ≤ 90) := by
  unfold unicodeToLower
  by_cases h1 : r.toNat ≤ 127
  · rw [if_pos h1]
    by_cases h2 : 65 ≤ r.toNat ∧ r.toNat ≤ 90
    · rw [if_pos h2]
      obtain ⟨h3, h4⟩ := h2
      generalize r.toNat = n at h3 h4
      interval_cases n <;> decide
    · rw [if_neg h2]
      exact h2
  · rw [if_neg h1]
    exact htbl r (by omega)

theorem regionName_chars (tbl : Char → Char)
    (htbl : ∀ r : Char, 127 < r.toNat → ¬ (65 ≤ (tbl r).toNat ∧ (tbl r).toNat ≤ 90))
    (location : BuienradarAPIData) (c : Char) (hc : c ∈ (regionName tbl location).data) :
    c ≠ ' ' ∧ ¬ (65 ≤ c.toNat ∧ c.toNat ≤ 90) := by
  simp only [regionName, stringsReplaceAll, stringsToLower, List.map_map, List.mem_map,
    Function.comp] at hc
  obtain ⟨r, _, rfl⟩ := hc
  by_cases h : unicodeToLower tbl r = ' '
  · rw [if_pos h]
    decide
  · rw [if_neg h]
    exact ⟨h, unicodeToLower_not_upper tbl htbl r⟩

/-- C10: the target region is compared verbatim.  Provided the Unicode case
tables never lower-case a rune above ASCII to an ASCII capital, a target region
that contains a space or an ASCII capital letter matches no station: every
iteration ends at the `continue` and one cycle of `BuienradarLoop` sends no
message, because a normalized station region contains neither a space nor an
ASCII capital. -/
theorem target_region_verbatim (tbl : Char → Char)
    (htbl : ∀ r : Char, 127 < r.toNat → ¬ (65 ≤ (tbl r).toNat ∧ (tbl r).toNat ≤ 90))
    (env : String → Option String) (b t : String)
    (hb : env "MQTT_TOPIC" = some b) (ht : env "BUIENRADAR_REGION" = some t)
    (hbad : ∃ c ∈ t.data, c = ' ' ∨ (65 ≤ c.toNat ∧ c.toNat ≤ 90))
    (feed : List BuienradarAPIData) :
    (∀ location : BuienradarAPIData,
        (∀ c ∈ (regionName tbl location).data, c ≠ ' ' ∧ ¬ (65 ≤ c.toNat ∧ c.toNat ≤ 90)) ∧
        stationBody tbl b t location = none) ∧
      (BuienradarLoop tbl env [.stations feed]).sent = [] := by
  have hne : ∀ location : BuienradarAPIData, regionName tbl location ≠ t := by
    intro location heq
    obtain ⟨c, hc, hc2⟩ := hbad
    rw [← heq] at hc
    have h := regionName_chars tbl htbl location c hc
    rcases hc2 with hc2 | hc2
    · exact h.1 hc2
    · exact h.2 hc2
  refine ⟨fun location => ⟨regionName_chars tbl htbl location, ?_⟩, ?_⟩
  · rw [stationBody_eq, if_neg (hne location)]
  · rw [BuienradarLoop_one tbl env b t hb ht]
    apply List.flatMap_eq_nil_iff.2
    intro location _
    rw [stationSent_eq, if_neg (hne location)]

/-- C10 with the target region spelled `Zuid-Holland`. -/
theorem target_region_verbatim_witness :
    stationBody id "weer" "Zuid-Holland" rotterdam = none ∧
      (BuienradarLoop id
        (fun name => if name = "MQTT_TOPIC" then some "weer" else some "Zuid-Holland")
        [.stations [rotterdam, hoekVanHolland, leeuwarden]]).sent = [] :=
  have h := target_region_verbatim id (fun r hr => by simp only [id]; omega)
    (fun name => if name = "MQTT_TOPIC" then some "weer" else some "Zuid-Holland")
    "weer" "Zuid-Holland" (by decide) (by decide) ⟨'Z', by decide, Or.inr (by decide)⟩
    [rotterdam, hoekVanHolland, leeuwarden]
  ⟨(h.1 rotterdam).2, h.2⟩

theorem messageLoopFrom_accepted (c : Client) (p : String) (ch : List MqttCronMessage)
    (history : List Publish)
    (hok : ∀ pre m post, ch = pre ++ m :: post →
      ((c (history ++ pre.map (publishCall p)) (publishCall p m)).wait &&
        (c (history ++ pre.map (publishCall p)) (publishCall p m)).error.isSome) = false) :
    (messageLoopFrom c p history ch).published = ch.map (publishCall p) ∧
      (messageLoopFrom c p history ch).status = .returned := by
  induction ch generalizing history with
  | nil => simp [messageLoopFrom, Run.published]
  | cons m rest ih =>
    have h0 := hok [] m rest rfl
    simp only [List.map_nil, List.append_nil] at h0
    have hrest := ih (history ++ [publishCall p m]) (by
      intro pre x post hx
      have := hok (m :: pre) x post (by rw [hx]; rfl)
      simpa [List.append_assoc] using this)
    simp only [messageLoopFrom, h0]
    simp only [Run.published] at hrest ⊢
    simp [hrest.1, hrest.2]

theorem messageLoopFrom_refused (c : Client) (p : String) (before : List MqttCronMessage)
    (m : MqttCronMessage) (after : List MqttCronMessage) (history : List Publish)
    (hok : ∀ pre x post, before = pre ++ x :: post →
      ((c (history ++ pre.map (publishCall p)) (publishCall p x)).wait &&
        (c (history ++ pre.map (publishCall p)) (publishCall p x)).error.isSome) = false)
    (hbad : ((c (history ++ before.map (publishCall p)) (publishCall p m)).wait &&
        (c (history ++ before.map (publishCall p)) (publishCall p m)).error.isSome) = true) :
    (messageLoopFrom c p history (before ++ m :: after)).published =
        (before ++ [m]).map (publishCall p) ∧
      (messageLoopFrom c p history (before ++ m :: after)).status = .fatal := by
  induction before generalizing history with
  | nil =>
    simp only [List.map_nil, List.append_nil] at hbad
    simp [messageLoopFrom, hbad, Run.published]
  | cons x rest ih =>
    have h0 := hok [] x rest rfl
    simp only [List.map_nil, List.append_nil] at h0
    have hrest := ih (history ++ [publishCall p x]) (by
      intro pre y post hy
      have := hok (x :: pre) y post (by rw [hy]; rfl)
      simpa [List.append_assoc] using this) (by simpa [List.append_assoc] using hbad)
    simp only [List.cons_append, messageLoopFrom, h0]
    simp only [Run.published] at hrest ⊢
    simp [hrest.1, hrest.2]

/-- C8: with a client whose `Wait` returns true once the publish has completed,
as long as no publish has failed `MessageLoop` issues one publish per message, in
the order received, with topic `prefix/Topic`, quality of service 0 and the
payload and retain flag of the message; if no publish fails the loop returns
after the last message, and if the publish of a message fails the loop ends
fatally there, after the publishes for the messages up to and including that
one and with none for any later message. -/
theorem publish_each_in_order (c : Client) (p : String)
    (hwait : ∀ history call, (c history call).wait = true) :
    (∀ ch : List MqttCronMessage,
        (∀ pre m post, ch = pre ++ m :: post →
          (c (pre.map (publishCall p)) (publishCall p m)).error = none) →
        (MessageLoop c ch p).published =
            ch.map (fun m =>
              { topic := p ++ "/" ++ m.Topic, qos := 0, retained := m.Retain,
                payload := m.Payload }) ∧
          (MessageLoop c ch p).status = .returned) ∧
      ∀ (before : List MqttCronMessage) (m : MqttCronMessage) (after : List MqttCronMessage),
        (∀ pre x post, before = pre ++ x :: post →
          (c (pre.map (publishCall p)) (publishCall p x)).error = none) →
        (c (before.map (publishCall p)) (publishCall p m)).error ≠ none →
        (MessageLoop c (before ++ m :: after) p).published =
            (before ++ [m]).map (fun m =>
              { topic := p ++ "/" ++ m.Topic, qos := 0, retained := m.Retain,
                payload := m.Payload }) ∧
          (MessageLoop c (before ++ m :: after) p).status = .fatal := by
  refine ⟨?_, ?_⟩
  · intro ch hok
    exact messageLoopFrom_accepted c p ch [] (by
      intro pre m post h
      simp [hok pre m post h])
  · intro before m after hok hbad
    exact messageLoopFrom_refused c p before m after [] (by
      intro pre x post h
      simp [hok pre x post h]) (by
      cases herr : (c ([] ++ before.map (publishCall p)) (publishCall p m)).error with
      | none => exact absurd (by simpa using herr) hbad
      | some e => simp [hwait])

/-- C8 with a client that accepts every publish and with one that refuses the
second of three. -/
theorem publish_each_in_order_witness :
    ((MessageLoop acceptingClient (stationSent id "weer" "zuid-holland" hoekVanHolland)
          "/home.arpa").published =
        [{ topic := "/home.arpa/weer/temperature.ground", qos := 0, retained := false,
           payload := "12.3" },
         { topic := "/home.arpa/weer/wind", qos := 0, retained := false, payload := "5.0" },
         { topic := "/home.arpa/weer/sight", qos := 0, retained := false,
           payload := "18000" }] ∧
      (MessageLoop acceptingClient (stationSent id "weer" "zuid-holland" hoekVanHolland)
          "/home.arpa").status = .returned) ∧
    ((MessageLoop pickyClient
          ([{ Topic := "weer/wind", Payload := "6.2", Retain := false }] ++
            { Topic := "weer/gust", Payload := "9.8", Retain := false } ::
            [{ Topic := "weer/rain", Payload := "0.0", Retain := false }])
          "/home.arpa").published =
        [{ topic := "/home.arpa/weer/wind", qos := 0, retained := false, payload := "6.2" },
         { topic := "/home.arpa/weer/gust", qos := 0, retained := false, payload := "9.8" }] ∧
      (MessageLoop pickyClient
          ([{ Topic := "weer/wind", Payload := "6.2", Retain := false }] ++
            { Topic := "weer/gust", Payload := "9.8", Retain := false } ::
            [{ Topic := "weer/rain", Payload := "0.0", Retain := false }])
          "/home.arpa").status = .fatal) :=
  ⟨⟨((publish_each_in_order acceptingClient "/home.arpa" (fun _ _ => rfl)).1
        (stationSent id "weer" "zuid-holland" hoekVanHolland) (fun _ _ _ _ => rfl)).1.trans
      (by decide),
    ((publish_each_in_order acceptingClient "/home.arpa" (fun _ _ => rfl)).1
        (stationSent id "weer" "zuid-holland" hoekVanHolland) (fun _ _ _ _ => rfl)).2⟩,
   ⟨((publish_each_in_order pickyClient "/home.arpa"
        (fun _ call => by unfold pickyClient; split <;> rfl)).2
        [{ Topic := "weer/wind", Payload := "6.2", Retain := false }]
        { Topic := "weer/gust", Payload := "9.8", Retain := false }
        [{ Topic := "weer/rain", Payload := "0.0", Retain := false }]
        (fun pre x post h => by
          have hx : x ∈ [({ Topic := "weer/wind", Payload := "6.2", Retain := false } :
              MqttCronMessage)] := by rw [h]; simp
          rw [List.mem_singleton] at hx
          subst hx
          rfl)
        (by decide)).1.trans (by decide),
    ((publish_each_in_order pickyClient "/home.arpa"
        (fun _ call => by unfold pickyClient; split <;> rfl)).2
        [{ Topic := "weer/wind", Payload := "6.2", Retain := false }]
        { Topic := "weer/gust", Payload := "9.8", Retain := false }
        [{ Topic := "weer/rain", Payload := "0.0", Retain := false }]
        (fun pre x post h => by
          have hx : x ∈ [({ Topic := "weer/wind", Payload := "6.2", Retain := false } :
              MqttCronMessage)] := by rw [h]; simp
          rw [List.mem_singleton] at hx
          subst hx
          rfl)
        (by decide)).2⟩⟩

theorem messageLoopFrom_published_take (c : Client) (p : String) (ch : List MqttCronMessage)
    (history : List Publish) :
    (messageLoopFrom c p history ch).published =
      (ch.map (publishCall p)).take (messageLoopFrom c p history ch).published.length := by
  induction ch generalizing history with
  | nil => simp [messageLoopFrom, Run.published]
  | cons m rest ih =>
    have hrest := ih (history ++ [publishCall p m])
    simp only [Run.published] at hrest ⊢
    simp only [messageLoopFrom]
    split
    · simp
    · simp only [List.filterMap_cons, List.map_cons, List.length_cons, List.take_succ_cons]
      exact congrArg _ hrest

theorem cycle_topics (tbl : Char → Char) (p b t : String) (feed : List BuienradarAPIData) :
    (feed.flatMap (stationSent tbl b t)).map (fun m => (publishCall p m).topic) =
      (feed.filter fun location => regionName tbl location = t).flatMap fun location =>
        (presentFields location).map fun f => p ++ "/" ++ b ++ "/" ++ f.1 := by
  induction feed with
  | nil => rfl
  | cons location rest ih =>
    rw [List.flatMap_cons, List.map_append, ih, stationSent_eq]
    by_cases h : regionName tbl location = t
    · rw [List.filter_cons_of_pos (by simpa using h), List.flatMap_cons, if_pos h, List.map_map]
      congr 1
      apply List.map_congr_left
      intro f _
      simp [publishCall, SprintfSlash, fieldMessage, String.append_assoc]
    · rw [List.filter_cons_of_neg (by simpa using h), if_neg h]
      rfl

theorem run_topics (tbl : Char → Char) (p b t : String) (feeds : List (List BuienradarAPIData)) :
    (feeds.flatMap fun feed => feed.flatMap (stationSent tbl b t)).map
        (fun m => (publishCall p m).topic) =
      feeds.flatMap fun feed =>
        (feed.filter fun location => regionName tbl location = t).flatMap fun location =>
          ((trackedFields location).filter
            fun f => BuienradarAPINormalizeValue f.2 != "").map
              fun f => p ++ "/" ++ b ++ "/" ++ f.1 := by
  induction feeds with
  | nil => rfl
  | cons feed rest ih =>
    rw [List.flatMap_cons, List.map_append, ih, cycle_topics, List.flatMap_cons]
    rfl

/-- C1: whatever the successive fetches answer, the topics that `MessageLoop`
passes to the broker for the messages that `BuienradarLoop` sends are, one by
one and in order, `p/b/s` for the prefix `p`, the topic base `b` and the
canonical names `s` of the present tracked fields of the matching stations of
the fetched feeds; when no publish fails, every such topic is passed; and every
topic passed is `p/b/s` for one of the eight canonical names `s`. -/
theorem broker_topic (tbl : Char → Char) (env : String → Option String) (p b t : String)
    (hb : env "MQTT_TOPIC" = some b) (ht : env "BUIENRADAR_REGION" = some t)
    (responses : List FeedResponse) (c : Client) :
    ((MessageLoop c (BuienradarLoop tbl env responses).sent p).published.map
          fun call => call.topic) =
        ((completedFeeds responses).flatMap fun feed =>
          (feed.filter fun location => regionName tbl location = t).flatMap fun location =>
            ((trackedFields location).filter
              fun f => BuienradarAPINormalizeValue f.2 != "").map
                fun f => p ++ "/" ++ b ++ "/" ++ f.1).take
          (MessageLoop c (BuienradarLoop tbl env responses).sent p).published.length ∧
      ((∀ history call, (c history call).error = none) →
        ((MessageLoop c (BuienradarLoop tbl env responses).sent p).published.map
            fun call => call.topic) =
          (completedFeeds responses).flatMap fun feed =>
            (feed.filter fun location => regionName tbl location = t).flatMap fun location =>
              ((trackedFields location).filter
                fun f => BuienradarAPINormalizeValue f.2 != "").map
                  fun f => p ++ "/" ++ b ++ "/" ++ f.1) ∧
      ∀ call ∈ (MessageLoop c (BuienradarLoop tbl env responses).sent p).published,
        ∃ s ∈ ["humidity", "temperature.ground", "temperature.10cm", "wind", "gust",
            "pressure", "rain", "sight"],
          call.topic = p ++ "/" ++ b ++ "/" ++ s := by
  have hsent : (BuienradarLoop tbl env responses).sent =
      (completedFeeds responses).flatMap fun feed => feed.flatMap (stationSent tbl b t) := by
    unfold BuienradarLoop
    rw [hb, ht]
    simp only
    induction responses with
    | nil => rfl
    | cons response later ih =>
      cases response with
      | getFailed => rfl
      | readFailed => rfl
      | parseFailed => rfl
      | stations feed =>
        have h := sent_map_send (feed.flatMap (stationSent tbl b t)) .returned
        simp only [Run.sent] at h ih ⊢
        simp only [pollLoop, BuienradarAPICall, rangeStations_eq, completedFeeds,
          List.flatMap_cons]
        simp [List.filterMap_append, h, ih]
  rw [hsent]
  have htopics := run_topics tbl p b t (completedFeeds responses)
  have htake : ((MessageLoop c
        ((completedFeeds responses).flatMap fun feed => feed.flatMap (stationSent tbl b t))
        p).published.map fun call => call.topic) =
      ((completedFeeds responses).flatMap fun feed =>
        (feed.filter fun location => regionName tbl location = t).flatMap fun location =>
          ((trackedFields location).filter
            fun f => BuienradarAPINormalizeValue f.2 != "").map
              fun f => p ++ "/" ++ b ++ "/" ++ f.1).take
        (MessageLoop c
          ((completedFeeds responses).flatMap fun feed => feed.flatMap (stationSent tbl b t))
          p).published.length := by
    have h := messageLoopFrom_published_take c p
      ((completedFeeds responses).flatMap fun feed => feed.flatMap (stationSent tbl b t)) []
    have h2 := congrArg (List.map fun call : Publish => call.topic) h
    rw [List.map_take, List.map_map] at h2
    rw [← htopics]
    exact h2
  refine ⟨htake, ?_, ?_⟩
  · intro hok
    have h := (messageLoopFrom_accepted c p
      ((completedFeeds responses).flatMap fun feed => feed.flatMap (stationSent tbl b t)) []
      (by
        intro pre m post _
        simp [hok])).1
    rw [← htopics, MessageLoop, h, List.map_map]
    rfl
  · intro call hcall
    have hmem : call.topic ∈ ((MessageLoop c
        ((completedFeeds responses).flatMap fun feed => feed.flatMap (stationSent tbl b t))
        p).published.map fun call => call.topic) := List.mem_map_of_mem _ hcall
    rw [htake] at hmem
    have hmem2 := List.mem_of_mem_take hmem
    obtain ⟨feed, _, hfeed⟩ := List.mem_flatMap.1 hmem2
    obtain ⟨location, _, hloc⟩ := List.mem_flatMap.1 hfeed
    obtain ⟨f, hf, hf2⟩ := List.mem_map.1 hloc
    refine ⟨f.1, ?_, hf2.symm⟩
    have hnames : f.1 ∈ (trackedFields location).map (fun f => f.1) :=
      List.mem_map_of_mem _ (List.mem_filter.1 hf).1
    exact hnames

/-- C1 over two cycles followed by a failed fetch, with a client that accepts
every publish: the messages and the topics of both cycles, and none for the
response after the failure. -/
theorem broker_topic_witness :
    (BuienradarLoop id exampleEnv
        [.stations [leeuwarden, hoekVanHolland], .stations [rotterdam], .parseFailed,
          .stations [rotterdam]]).sent =
      [{ Topic := "weer/temperature.ground", Payload := "12.3", Retain := false },
       { Topic := "weer/wind", Payload := "5.0", Retain := false },
       { Topic := "weer/sight", Payload := "18000", Retain := false },
       { Topic := "weer/humidity", Payload := "77", Retain := false }] ∧
    ((MessageLoop acceptingClient
        (BuienradarLoop id exampleEnv
          [.stations [leeuwarden, hoekVanHolland], .stations [rotterdam], .parseFailed,
            .stations [rotterdam]]).sent
        "/home.arpa").published.map fun call => call.topic) =
      ["/home.arpa/weer/temperature.ground", "/home.arpa/weer/wind", "/home.arpa/weer/sight",
        "/home.arpa/weer/humidity"] :=
  ⟨by decide,
    ((broker_topic id exampleEnv "/home.arpa" "weer" "zuid-holland" (by decide) (by decide)
      [.stations [leeuwarden, hoekVanHolland], .stations [rotterdam], .parseFailed,
        .stations [rotterdam]] acceptingClient).2.1 (fun _ _ => rfl)).trans (by decide)⟩

end BuienradarMqtt
